import Mathlib

/-!
# A shallow embedding of `src/lib/price.ts` (class `PriceManager`)

This file models the price-resolution subsystem of the repository:

* `fetchWithRetry` embeds `PriceManager.fetchWithRetry` (lines 27-57 of
  `price.ts`): a loop of up to `MAX_RETRIES + 1` fetch attempts with
  rate-limit (HTTP 429) handling and exponential backoff on transport
  failures.
* `getSolanaPrice` embeds `PriceManager.getSolanaPrice` (lines 59-150):
  cache check, the CoinGecko / Jupiter / Binance provider chain, and the
  stale-cache / default fallbacks.
* `clearCache` embeds `PriceManager.clearCache` (lines 152-154).

Modelling conventions:

* The network is an oracle `ℕ → FetchResult`: the `n`-th `fetch` call of a
  run (counted globally by the threaded index `k`) either throws a
  transport error (`FetchResult.transportFail`, the `catch` branch) or
  yields a `Response` with a status code, an optional `Retry-After`
  header and an optional parsed JSON body (`none` models a body on which
  `response.json()` rejects).
* JS numbers are modelled as rationals `ℚ`.  `NaN` has no rational
  counterpart; at the few spots where JS could produce `NaN`
  (`parseInt` / `parseFloat` of garbage) the model returns `0`, and no
  theorem below visits those inputs with a claim about the value.
* Every `fetch` call and every `setTimeout` sleep is recorded in an event
  trace `List Ev`.  The two distinct `setTimeout` call sites of the source
  (line 43 for the 429 path, line 51 for the transport backoff) get two
  distinct constructors, so a trace tells rate-limit waits apart from
  backoff waits.
* `Date.now()` is read at most twice per `getSolanaPrice` call, once in
  the cache check and once when a successful record is stored; the two
  values are the parameters `now` and `tset`.
* The JS `Map` cache is an insertion-ordered association list with the
  `Map.get` / `Map.set` / `Map.clear` semantics.
* The outer `try`/`catch` of `getSolanaPrice` (lines 137-149) can only be
  entered when a logging call throws; logging is not modelled, so the
  handler is unreachable here and is not part of the embedding.
-/

/-- A JSON value, as far as `price.ts` inspects one: numbers, strings,
objects (association lists of fields) and `null`.  Booleans and arrays are
never inspected by the source and are omitted. -/
inductive Json where
  | num (q : ℚ)
  | str (s : String)
  | obj (fields : List (String × Json))
  | null

/-- Field lookup in a JSON object: first binding wins. -/
def lookupField : List (String × Json) → String → Option Json
  | [], _ => none
  | (k, v) :: rest, key => if k = key then some v else lookupField rest key

/-- Property access `v.key` on an optional JSON value; anything but an
object yields `undefined` (`none`), which also models JS optional
chaining on the guarded accesses of the source. -/
def jget : Option Json → String → Option Json
  | some (Json.obj fs), key => lookupField fs key
  | _, _ => none

/-- JS truthiness of an (optional) JSON value: `undefined`, `null`, `0`
and `""` are falsy, everything else here is truthy. -/
def truthy : Option Json → Bool
  | none => false
  | some Json.null => false
  | some (Json.num q) => q != 0
  | some (Json.str s) => s != ""
  | some (Json.obj _) => true

/-- `typeof v === 'number'`. -/
def isNumber : Option Json → Bool
  | some (Json.num _) => true
  | _ => false

/-- The numeric value of a JSON value known (or guarded) to be a number.
Non-numbers map to `0`; no theorem relies on the value at a non-number. -/
def numVal : Option Json → ℚ
  | some (Json.num q) => q
  | _ => 0

/-- Models the JS expression `v || 0` in the number-typed state of this
embedding: a numeric value is kept (note `0 || 0 = 0`, so keeping `q`
also covers the falsy number), everything else becomes `0`.  A truthy
non-number would propagate as a non-number in JS and is outside the
numeric state space of the model. -/
def jsOrZero : Option Json → ℚ
  | some (Json.num q) => q
  | _ => 0

/-- Models `x || 0` for an optional number (the `cached?.change24h || 0`
of line 99); `some q` gives `q` since `0 || 0 = 0`. -/
def jsOptOrZero : Option ℚ → ℚ
  | some q => q
  | none => 0

/-- Consume a run of decimal digits: accumulated value, digit count, rest. -/
def parseDigits : List Char → ℕ → ℕ → ℕ × ℕ × List Char
  | [], acc, n => (acc, n, [])
  | c :: cs, acc, n =>
    if c.isDigit then parseDigits cs (acc * 10 + (c.toNat - 48)) (n + 1)
    else (acc, n, c :: cs)

/-- JS `parseInt` on a header string, for plain optionally-signed decimal
strings (no radix prefixes, no leading whitespace trimming): `none` is
`NaN`. -/
def parseIntJS (s : String) : Option ℤ :=
  match s.data with
  | '-' :: cs =>
    match parseDigits cs 0 0 with
    | (v, n, _) => if n = 0 then none else some (-(v : ℤ))
  | cs =>
    match parseDigits cs 0 0 with
    | (v, n, _) => if n = 0 then none else some (v : ℤ)

/-- JS `parseFloat` of a string, for plain optionally-signed decimal
strings with an optional fractional part (exponent notation is not
modelled, and `NaN` is represented by `0`; no theorem relies on the
value at a string outside this fragment). -/
def parseDecimal (s : String) : ℚ :=
  let core : List Char → ℚ := fun cs =>
    match parseDigits cs 0 0 with
    | (ip, ni, rest) =>
      match rest with
      | '.' :: cs2 =>
        match parseDigits cs2 0 0 with
        | (fp, nf, _) =>
          if ni = 0 && nf = 0 then 0
          else (ip : ℚ) + (fp : ℚ) / ((10 : ℚ) ^ nf)
      | _ => if ni = 0 then 0 else (ip : ℚ)
  match s.data with
  | '-' :: cs => -(core cs)
  | cs => core cs

/-- JS `parseFloat` applied to a JSON value (Binance returns its numbers
as strings; a number coerces through its decimal printout, which for the
numbers under study is the identity). -/
def parseFloatJS : Option Json → ℚ
  | some (Json.num q) => q
  | some (Json.str s) => parseDecimal s
  | _ => 0

/-- An HTTP response as `fetchWithRetry` inspects it: status code, the
optional `Retry-After` header, and the JSON body (`none` when
`response.json()` rejects). -/
structure Response where
  status : ℕ
  retryAfter : Option String
  body : Option Json

/-- `response.ok`: status in the 2xx range. -/
def respOk (r : Response) : Bool := 200 ≤ r.status && r.status ≤ 299

/-- Outcome of one `fetch` call: the `catch` branch (network error /
timeout) or a delivered response. -/
inductive FetchResult where
  | transportFail
  | resp (r : Response)

/-- Observable events of a run: a `fetch` of a URL (line 32), a
rate-limit sleep (the `setTimeout` of line 43) and a backoff sleep (the
`setTimeout` of line 51), with the slept milliseconds. -/
inductive Ev where
  | fetch (url : String)
  | rateWait (ms : ℕ)
  | backoffWait (ms : ℕ)
deriving DecidableEq

/-- `CACHE_DURATION = 60000` (line 13). -/
def CACHE_DURATION : ℕ := 60000

/-- `MAX_RETRIES = 3` (line 15). -/
def MAX_RETRIES : ℕ := 3

/-- `RETRY_DELAY = 1000` (line 16). -/
def RETRY_DELAY : ℕ := 1000

/-- The milliseconds slept on a 429 (lines 41-43):
`retryAfter ? parseInt(retryAfter) * 1000 : RETRY_DELAY`, with
`setTimeout` clamping negative delays to `0` and treating `NaN` as `0`. -/
def rateLimitWait (r : Response) : ℕ :=
  match r.retryAfter with
  | some s =>
    if s ≠ "" then
      match parseIntJS s with
      | some n => (n * 1000).toNat
      | none => 0
    else RETRY_DELAY
  | none => RETRY_DELAY

/-- Result of a `fetchWithRetry` run: `result = some r` is
`return response`, `result = none` is the final `throw`; `kEnd` is the
oracle index after the run; `trace` the events in order. -/
structure RetryRun where
  result : Option Response
  kEnd : ℕ
  trace : List Ev

/-- The retry loop of `fetchWithRetry` (lines 30-54).  `fuel` counts the
remaining loop iterations (`MAX_RETRIES + 1 - i` at the top level), `i`
is the loop counter of the source and `k` the global fetch index. -/
def fetchLoop (url : String) (oracle : ℕ → FetchResult) :
    ℕ → ℕ → ℕ → RetryRun
  | 0, _, k => ⟨none, k, []⟩
  | fuel + 1, i, k =>
    match oracle k with
    | FetchResult.transportFail =>
      let rest := fetchLoop url oracle fuel (i + 1) (k + 1)
      if i < MAX_RETRIES then
        ⟨rest.result, rest.kEnd,
          Ev.fetch url :: Ev.backoffWait (RETRY_DELAY * 2 ^ i) :: rest.trace⟩
      else
        ⟨rest.result, rest.kEnd, Ev.fetch url :: rest.trace⟩
    | FetchResult.resp r =>
      if r.status = 429 then
        let rest := fetchLoop url oracle fuel (i + 1) (k + 1)
        ⟨rest.result, rest.kEnd,
          Ev.fetch url :: Ev.rateWait (rateLimitWait r) :: rest.trace⟩
      else
        ⟨some r, k + 1, [Ev.fetch url]⟩

/-- `PriceManager.fetchWithRetry` (lines 27-57). -/
def fetchWithRetry (url : String) (oracle : ℕ → FetchResult) (k : ℕ) :
    RetryRun :=
  fetchLoop url oracle (MAX_RETRIES + 1) 0 k

/-- URLs fetched in a trace, in order. -/
def fetchUrls (t : List Ev) : List String :=
  t.filterMap fun e =>
    match e with
    | Ev.fetch u => some u
    | _ => none

/-- Number of fetch calls in a trace. -/
def countFetch (t : List Ev) : ℕ := (fetchUrls t).length

/-- Milliseconds of the backoff sleeps of a trace, in order. -/
def backoffWaits (t : List Ev) : List ℕ :=
  t.filterMap fun e =>
    match e with
    | Ev.backoffWait ms => some ms
    | _ => none

/-- A cached record `{ price, change24h, timestamp }` (line 12). -/
structure CacheRec where
  price : ℚ
  change24h : ℚ
  timestamp : ℕ
deriving DecidableEq

/-- State of the `PriceManager` singleton: the `Map`-backed cache as an
insertion-ordered association list, and the `retryCount` field (line 14,
written only at line 81). -/
structure PMState where
  cache : List (String × CacheRec)
  retryCount : ℕ
deriving DecidableEq

/-- `Map.get`. -/
def mapGet : List (String × CacheRec) → String → Option CacheRec
  | [], _ => none
  | (k, v) :: rest, key => if k = key then some v else mapGet rest key

/-- `Map.set`: replace the binding in place if the key is present,
append otherwise. -/
def mapSet : List (String × CacheRec) → String → CacheRec →
    List (String × CacheRec)
  | [], key, v => [(key, v)]
  | (k, w) :: rest, key, v =>
    if k = key then (k, v) :: rest else (k, w) :: mapSet rest key v

/-- The primary endpoint URL (line 70). -/
def coingeckoUrl : String :=
  "https://api.coingecko.com/api/v3/simple/price?ids=solana&vs_currencies=usd&include_24hr_change=true"

/-- The first backup endpoint URL (line 92). -/
def jupiterUrl : String := "https://price.jup.ag/v4/price?ids=SOL"

/-- The second backup endpoint URL (line 112). -/
def binanceUrl : String :=
  "https://api.binance.com/api/v3/ticker/24hr?symbol=SOLUSDT"

/-- Outcome of one provider block of `getSolanaPrice`: `success` carries
the `(price, change24h)` pair the block would cache and return, `none`
means the block fell through to the next provider; `kEnd` and `trace`
account for the block's fetches and sleeps. -/
structure ProviderTry where
  success : Option (ℚ × ℚ)
  kEnd : ℕ
  trace : List Ev

/-- The CoinGecko block (lines 68-87): fetch with retry; on a 2xx
response whose body parses, require `data.solana` truthy and
`data.solana.usd` a number; the 24h change is `data.solana.usd_24h_change || 0`.
Any thrown error is caught and falls through. -/
def tryPrimary (oracle : ℕ → FetchResult) (k : ℕ) : ProviderTry :=
  let run := fetchWithRetry coingeckoUrl oracle k
  match run.result with
  | none => ⟨none, run.kEnd, run.trace⟩
  | some r =>
    if respOk r then
      match r.body with
      | none => ⟨none, run.kEnd, run.trace⟩
      | some data =>
        if truthy (jget (some data) "solana")
            && isNumber (jget (jget (some data) "solana") "usd") then
          ⟨some (numVal (jget (jget (some data) "solana") "usd"),
                 jsOrZero (jget (jget (some data) "solana") "usd_24h_change")),
           run.kEnd, run.trace⟩
        else ⟨none, run.kEnd, run.trace⟩
    else ⟨none, run.kEnd, run.trace⟩

/-- The Jupiter block (lines 90-107): on a 2xx response whose body
parses, require `data.data?.SOL?.price` truthy; the 24h change is
`cached?.change24h || 0` from the record read at the start of the call. -/
def tryJupiter (cached : Option CacheRec) (oracle : ℕ → FetchResult)
    (k : ℕ) : ProviderTry :=
  let run := fetchWithRetry jupiterUrl oracle k
  match run.result with
  | none => ⟨none, run.kEnd, run.trace⟩
  | some r =>
    if respOk r then
      match r.body with
      | none => ⟨none, run.kEnd, run.trace⟩
      | some data =>
        if truthy (jget (jget (jget (some data) "data") "SOL") "price") then
          ⟨some (numVal (jget (jget (jget (some data) "data") "SOL") "price"),
                 jsOptOrZero (cached.map CacheRec.change24h)),
           run.kEnd, run.trace⟩
        else ⟨none, run.kEnd, run.trace⟩
    else ⟨none, run.kEnd, run.trace⟩

/-- The Binance block (lines 110-127): on a 2xx response whose body
parses, require `data.lastPrice` and `data.priceChangePercent` truthy;
both are then run through `parseFloat`. -/
def tryBinance (oracle : ℕ → FetchResult) (k : ℕ) : ProviderTry :=
  let run := fetchWithRetry binanceUrl oracle k
  match run.result with
  | none => ⟨none, run.kEnd, run.trace⟩
  | some r =>
    if respOk r then
      match r.body with
      | none => ⟨none, run.kEnd, run.trace⟩
      | some data =>
        if truthy (jget (some data) "lastPrice")
            && truthy (jget (some data) "priceChangePercent") then
          ⟨some (parseFloatJS (jget (some data) "lastPrice"),
                 parseFloatJS (jget (some data) "priceChangePercent")),
           run.kEnd, run.trace⟩
        else ⟨none, run.kEnd, run.trace⟩
    else ⟨none, run.kEnd, run.trace⟩

/-- The quote returned to the caller. -/
structure Quote where
  price : ℚ
  change24h : ℚ
deriving DecidableEq

/-- Result of a `getSolanaPrice` run: the returned quote, the state of
the manager after the call, the oracle index after the call and the event
trace. -/
structure GspRun where
  quote : Quote
  state : PMState
  kEnd : ℕ
  trace : List Ev

/-- The provider chain and fallbacks of `getSolanaPrice` (lines 67-136),
entered when the cache check did not return: CoinGecko, then Jupiter,
then Binance; the first success overwrites the cache (`retryCount` is
reset only by the CoinGecko block, line 81) and is returned; otherwise
the record read at the start of the call (even stale) is returned, and
failing that the fixed default `{price: 100, change24h: 0}`. -/
def providerPhase (tset : ℕ) (oracle : ℕ → FetchResult) (k : ℕ)
    (st : PMState) (cached : Option CacheRec) : GspRun :=
  let p1 := tryPrimary oracle k
  match p1.success with
  | some (price, change) =>
    ⟨⟨price, change⟩, ⟨mapSet st.cache "solana" ⟨price, change, tset⟩, 0⟩,
     p1.kEnd, p1.trace⟩
  | none =>
    let p2 := tryJupiter cached oracle p1.kEnd
    match p2.success with
    | some (price, change) =>
      ⟨⟨price, change⟩,
       ⟨mapSet st.cache "solana" ⟨price, change, tset⟩, st.retryCount⟩,
       p2.kEnd, p1.trace ++ p2.trace⟩
    | none =>
      let p3 := tryBinance oracle p2.kEnd
      match p3.success with
      | some (price, change) =>
        ⟨⟨price, change⟩,
         ⟨mapSet st.cache "solana" ⟨price, change, tset⟩, st.retryCount⟩,
         p3.kEnd, p1.trace ++ p2.trace ++ p3.trace⟩
      | none =>
        match cached with
        | some c =>
          ⟨⟨c.price, c.change24h⟩, st, p3.kEnd,
           p1.trace ++ p2.trace ++ p3.trace⟩
        | none =>
          ⟨⟨100, 0⟩, st, p3.kEnd, p1.trace ++ p2.trace ++ p3.trace⟩

/-- `PriceManager.getSolanaPrice` (lines 59-150).  `now` is the
`Date.now()` of the cache check (line 63) and `tset` the `Date.now()`
stored by a successful `cache.set`.  Note `now - c.timestamp` in `ℕ`
truncates at `0`, agreeing with the JS comparison also when the
timestamp lies in the future. -/
def getSolanaPrice (now tset : ℕ) (oracle : ℕ → FetchResult) (k : ℕ)
    (st : PMState) : GspRun :=
  let cached := mapGet st.cache "solana"
  match cached with
  | some c =>
    if now - c.timestamp < CACHE_DURATION then
      ⟨⟨c.price, c.change24h⟩, st, k, []⟩
    else providerPhase tset oracle k st cached
  | none => providerPhase tset oracle k st none

/-- `PriceManager.clearCache` (lines 152-154). -/
def clearCache (st : PMState) : PMState := ⟨[], st.retryCount⟩

/-- The all-providers-failed fallback of lines 129-136: the record read
at the start of the call if any, else the fixed default. -/
def fallbackQuote : Option CacheRec → Quote
  | some c => ⟨c.price, c.change24h⟩
  | none => ⟨100, 0⟩

/-- The cache-freshness test of line 63:
`cached && Date.now() - cached.timestamp < CACHE_DURATION`. -/
def cacheFresh (now : ℕ) : Option CacheRec → Bool
  | some c => decide (now - c.timestamp < CACHE_DURATION)
  | none => false

/-- States of the `PriceManager` singleton reachable from its initial
state (empty cache, `retryCount = 0`, line 12-14) by any interleaving of
`getSolanaPrice` calls and `clearCache` calls. -/
inductive Reachable : PMState → Prop where
  | init : Reachable ⟨[], 0⟩
  | step (now tset k : ℕ) (oracle : ℕ → FetchResult) (st : PMState) :
      Reachable st → Reachable (getSolanaPrice now tset oracle k st).state
  | clear (st : PMState) : Reachable st → Reachable (clearCache st)

/-! ## Concrete network oracles and bodies used below -/

/-- Every fetch throws a transport error. -/
def oracleAllTransportFail : ℕ → FetchResult := fun _ => FetchResult.transportFail

/-- Every fetch yields an HTTP 500 with no usable body. -/
def oracleAll500 : ℕ → FetchResult := fun _ => FetchResult.resp ⟨500, none, none⟩

/-- First fetch is rate-limited without a `Retry-After` header, every
later fetch throws a transport error. -/
def oracleRateLimitedThenFail : ℕ → FetchResult := fun n =>
  if n = 0 then FetchResult.resp ⟨429, none, none⟩ else FetchResult.transportFail

/-- A successful CoinGecko body: `{solana: {usd: 17, usd_24h_change: -5/2}}`. -/
def bodyCgFull : Json :=
  Json.obj [("solana", Json.obj [("usd", Json.num 17),
                                 ("usd_24h_change", Json.num (-5/2))])]

/-- Every fetch yields a 2xx CoinGecko response with a full body. -/
def oracleCgSuccess : ℕ → FetchResult := fun _ =>
  FetchResult.resp ⟨200, none, some bodyCgFull⟩

/-- First fetch is rate-limited with `Retry-After: 2`, the second
succeeds with a full CoinGecko body. -/
def oracleRetryAfter2 : ℕ → FetchResult := fun n =>
  if n = 0 then FetchResult.resp ⟨429, some "2", none⟩
  else FetchResult.resp ⟨200, none, some bodyCgFull⟩

/-- A 2xx CoinGecko body with a numeric `usd` but no `usd_24h_change`
field: `{solana: {usd: 123}}`. -/
def bodyCgNoChange : Json :=
  Json.obj [("solana", Json.obj [("usd", Json.num 123)])]

/-- Every fetch yields a 2xx CoinGecko response missing the 24h-change
field. -/
def oracleCgNoChange : ℕ → FetchResult := fun _ =>
  FetchResult.resp ⟨200, none, some bodyCgNoChange⟩

/-- A 2xx CoinGecko body whose `usd` field is a string:
`{solana: {usd: "abc"}}`. -/
def bodyCgUsdString : Json :=
  Json.obj [("solana", Json.obj [("usd", Json.str "abc")])]

/-- Every fetch yields a 2xx CoinGecko response with a malformed `usd`. -/
def oracleCgUsdString : ℕ → FetchResult := fun _ =>
  FetchResult.resp ⟨200, none, some bodyCgUsdString⟩

/-- A successful Jupiter body: `{data: {SOL: {price: 33}}}`. -/
def bodyJup33 : Json :=
  Json.obj [("data", Json.obj [("SOL", Json.obj [("price", Json.num 33)])])]

/-- First fetch (CoinGecko) is a 500, every later fetch yields a 2xx
Jupiter response with price `33`. -/
def oracleJupiterAfter500 : ℕ → FetchResult := fun n =>
  if n = 0 then FetchResult.resp ⟨500, none, none⟩
  else FetchResult.resp ⟨200, none, some bodyJup33⟩

/-- A Jupiter body whose price is exactly `0`. -/
def bodyJupZero : Json :=
  Json.obj [("data", Json.obj [("SOL", Json.obj [("price", Json.num 0)])])]

/-- First fetch (CoinGecko) is a 500, the second (Jupiter) is a 2xx with
price `0`, every later fetch (Binance) is a 2xx with string fields. -/
def oracleJupiterZeroThenBinance : ℕ → FetchResult := fun n =>
  if n = 0 then FetchResult.resp ⟨500, none, none⟩
  else if n = 1 then FetchResult.resp ⟨200, none, some bodyJupZero⟩
  else FetchResult.resp ⟨200, none,
    some (Json.obj [("lastPrice", Json.str "144.5"),
                    ("priceChangePercent", Json.str "-3.2")])⟩

/-- The event trace of a retry run all of whose attempts are transport
failures, starting at loop index `i` with `fuel` iterations left: it
mirrors the loop body of `fetchWithRetry` on the `catch` path. -/
def transportTrace (url : String) : ℕ → ℕ → List Ev
  | _, 0 => []
  | i, fuel + 1 =>
    if i < MAX_RETRIES then
      Ev.fetch url :: Ev.backoffWait (RETRY_DELAY * 2 ^ i) ::
        transportTrace url (i + 1) fuel
    else Ev.fetch url :: transportTrace url (i + 1) fuel

/-- The growth discipline claimed for the exponential backoff: the `j`-th
backoff sleep of a run (backoff sleeps happen exactly once after each
non-final transport failure, so the `j`-th backoff sleep follows the
`j`-th transport failure) is `RETRY_DELAY * 2 ^ j` — that is,
rate-limited attempts do not count toward the growth of the exponential
backoff delay. -/
def rateLimitedDoesNotCount : Prop :=
  ∀ (url : String) (oracle : ℕ → FetchResult) (k j w : ℕ),
    (backoffWaits (fetchWithRetry url oracle k).trace).get? j = some w →
    w = RETRY_DELAY * 2 ^ j

/-! ## Helper lemmas on traces and the retry loop -/

/-- Events that are sleeps, not fetches. -/
def isWait : Ev → Bool
  | Ev.fetch _ => false
  | Ev.rateWait _ => true
  | Ev.backoffWait _ => true

/-- Attempt outcomes on which the retry loop goes on to another
iteration: a transport failure or a 429 response. -/
def continuesB : FetchResult → Bool
  | FetchResult.transportFail => true
  | FetchResult.resp r => decide (r.status = 429)

@[simp] theorem fetchUrls_nil : fetchUrls [] = [] := rfl

@[simp] theorem fetchUrls_cons_fetch (u : String) (t : List Ev) :
    fetchUrls (Ev.fetch u :: t) = u :: fetchUrls t := rfl

@[simp] theorem fetchUrls_cons_rate (m : ℕ) (t : List Ev) :
    fetchUrls (Ev.rateWait m :: t) = fetchUrls t := rfl

@[simp] theorem fetchUrls_cons_backoff (m : ℕ) (t : List Ev) :
    fetchUrls (Ev.backoffWait m :: t) = fetchUrls t := rfl

@[simp] theorem fetchUrls_append (s t : List Ev) :
    fetchUrls (s ++ t) = fetchUrls s ++ fetchUrls t :=
  List.filterMap_append s t _

theorem fetchUrls_cons_wait (w : Ev) (t : List Ev) (h : isWait w = true) :
    fetchUrls (w :: t) = fetchUrls t := by
  cases w with
  | fetch u => simp [isWait] at h
  | rateWait m => rfl
  | backoffWait m => rfl

/-- The trace of a retry run with fuel left starts with its fetch. -/
theorem fetchLoop_head (url : String) (oracle : ℕ → FetchResult)
    (fuel i k : ℕ) (h : 0 < fuel) :
    ∃ rest, (fetchLoop url oracle fuel i k).trace = Ev.fetch url :: rest := by
  cases fuel with
  | zero => exact absurd h (lt_irrefl 0)
  | succ f =>
    cases ho : oracle k with
    | transportFail =>
      simp only [fetchLoop, ho]
      split <;> exact ⟨_, rfl⟩
    | resp r =>
      simp only [fetchLoop, ho]
      split <;> exact ⟨_, rfl⟩

/-- All fetches of a retry run hit the run's URL, at most `fuel` many,
and at least one when fuel is left. -/
theorem fetchLoop_urls (url : String) (oracle : ℕ → FetchResult) :
    ∀ fuel i k, ∃ n, n ≤ fuel ∧ (0 < fuel → 1 ≤ n) ∧
      fetchUrls (fetchLoop url oracle fuel i k).trace = List.replicate n url
  | 0, _, _ => ⟨0, le_refl 0, fun h => absurd h (lt_irrefl 0), rfl⟩
  | fuel + 1, i, k => by
    cases ho : oracle k with
    | transportFail =>
      obtain ⟨n, hn, _, hu⟩ := fetchLoop_urls url oracle fuel (i + 1) (k + 1)
      refine ⟨n + 1, by omega, fun _ => by omega, ?_⟩
      simp only [fetchLoop, ho]
      split <;> simp [hu, List.replicate_succ]
    | resp r =>
      by_cases h429 : r.status = 429
      · obtain ⟨n, hn, _, hu⟩ := fetchLoop_urls url oracle fuel (i + 1) (k + 1)
        refine ⟨n + 1, by omega, fun _ => by omega, ?_⟩
        simp only [fetchLoop, ho, if_pos h429]
        simp [hu, List.replicate_succ]
      · refine ⟨1, by omega, fun _ => le_refl 1, ?_⟩
        simp only [fetchLoop, ho, if_neg h429]
        simp [List.replicate_succ]

/-- At most `MAX_RETRIES + 1` fetches per `fetchWithRetry` run, and at
least one. -/
theorem fetchWithRetry_urls (url : String) (oracle : ℕ → FetchResult)
    (k : ℕ) :
    ∃ n, 1 ≤ n ∧ n ≤ MAX_RETRIES + 1 ∧
      fetchUrls (fetchWithRetry url oracle k).trace = List.replicate n url := by
  obtain ⟨n, hn, h1, hu⟩ := fetchLoop_urls url oracle (MAX_RETRIES + 1) 0 k
  exact ⟨n, h1 (Nat.succ_pos _), hn, hu⟩

/-- One continuing iteration of the loop: the attempt fetches, sleeps
once and hands over to the next iteration. -/
theorem fetchLoop_cont_step (url : String) (oracle : ℕ → FetchResult)
    (fuel i k : ℕ) (h : continuesB (oracle k) = true) (hi : i < MAX_RETRIES) :
    ∃ w, isWait w = true ∧
      fetchLoop url oracle (fuel + 1) i k =
        ⟨(fetchLoop url oracle fuel (i + 1) (k + 1)).result,
         (fetchLoop url oracle fuel (i + 1) (k + 1)).kEnd,
         Ev.fetch url :: w :: (fetchLoop url oracle fuel (i + 1) (k + 1)).trace⟩ := by
  cases ho : oracle k with
  | transportFail =>
    refine ⟨Ev.backoffWait (RETRY_DELAY * 2 ^ i), rfl, ?_⟩
    simp only [fetchLoop, ho, if_pos hi]
  | resp r =>
    rw [ho] at h
    have h429 : r.status = 429 := of_decide_eq_true h
    refine ⟨Ev.rateWait (rateLimitWait r), rfl, ?_⟩
    simp only [fetchLoop, ho, if_pos h429]

/-- Skipping `d` continuing attempts: the run's result is that of the
loop restarted `d` iterations later, and the skipped prefix holds
exactly `d` fetches. -/
theorem fetchLoop_skip (url : String) (oracle : ℕ → FetchResult) :
    ∀ d fuel i k, (∀ j, j < d → continuesB (oracle (k + j)) = true) →
      i + d ≤ MAX_RETRIES → d ≤ fuel →
      ∃ pre,
        (fetchLoop url oracle fuel i k).result =
          (fetchLoop url oracle (fuel - d) (i + d) (k + d)).result ∧
        (fetchLoop url oracle fuel i k).trace =
          pre ++ (fetchLoop url oracle (fuel - d) (i + d) (k + d)).trace ∧
        countFetch pre = d
  | 0, fuel, i, k, _, _, _ => ⟨[], by simp, by simp, rfl⟩
  | d + 1, fuel, i, k, hcont, hid, hdf => by
    obtain ⟨f, rfl⟩ : ∃ f, fuel = f + 1 :=
      ⟨fuel - 1, by omega⟩
    obtain ⟨w, hw, hstep⟩ :=
      fetchLoop_cont_step url oracle f i k
        (by simpa using hcont 0 (Nat.succ_pos d)) (by omega)
    obtain ⟨pre, hres, htr, hcnt⟩ :=
      fetchLoop_skip url oracle d f (i + 1) (k + 1)
        (fun j hj => by
          have := hcont (j + 1) (by omega)
          simpa [Nat.add_assoc, Nat.add_comm 1 j] using this)
        (by omega) (by omega)
    have e1 : f + 1 - (d + 1) = f - d := by omega
    have e2 : i + (d + 1) = i + 1 + d := by omega
    have e3 : k + (d + 1) = k + 1 + d := by omega
    refine ⟨Ev.fetch url :: w :: pre, ?_, ?_, ?_⟩
    · rw [hstep, e1, e2, e3]
      exact hres
    · rw [hstep, e1, e2, e3]
      simp only [List.cons_append]
      exact congrArg (fun t => Ev.fetch url :: w :: t) htr
    · simp only [countFetch] at hcnt ⊢
      rw [fetchUrls_cons_fetch, List.length_cons, fetchUrls_cons_wait w pre hw, hcnt]

/-- A transport failure at attempt index `i < MAX_RETRIES`, all earlier
attempts continuing, is followed by a backoff sleep of
`RETRY_DELAY * 2 ^ i` ms; the prefix holds exactly the `i` earlier
fetches. -/
theorem fetchWithRetry_backoff_at (url : String) (oracle : ℕ → FetchResult)
    (k i : ℕ) (hi : i < MAX_RETRIES)
    (hcont : ∀ j, j < i → continuesB (oracle (k + j)) = true)
    (hfail : oracle (k + i) = FetchResult.transportFail) :
    ∃ pre post,
      (fetchWithRetry url oracle k).trace =
        pre ++ Ev.fetch url :: Ev.backoffWait (RETRY_DELAY * 2 ^ i) :: post ∧
      countFetch pre = i := by
  obtain ⟨pre, _, htr, hcnt⟩ :=
    fetchLoop_skip url oracle i (MAX_RETRIES + 1) 0 k hcont (by omega) (by omega)
  have e : MAX_RETRIES + 1 - i = (MAX_RETRIES - i) + 1 := by omega
  rw [e] at htr
  simp only [Nat.zero_add] at htr
  simp only [fetchLoop, hfail, if_pos hi] at htr
  exact ⟨pre, _, htr, hcnt⟩

/-- `providerPhase` when the CoinGecko block succeeds: its pair is cached
(with `retryCount` reset) and returned; the trace is the CoinGecko
block's trace alone. -/
theorem providerPhase_primary_success (tset : ℕ) (oracle : ℕ → FetchResult)
    (k : ℕ) (st : PMState) (cached : Option CacheRec) (p ch : ℚ)
    (h : (tryPrimary oracle k).success = some (p, ch)) :
    providerPhase tset oracle k st cached =
      ⟨⟨p, ch⟩, ⟨mapSet st.cache "solana" ⟨p, ch, tset⟩, 0⟩,
       (tryPrimary oracle k).kEnd, (tryPrimary oracle k).trace⟩ := by
  simp only [providerPhase, h]

/-- `providerPhase` when CoinGecko fails and Jupiter succeeds. -/
theorem providerPhase_jupiter_success (tset : ℕ) (oracle : ℕ → FetchResult)
    (k : ℕ) (st : PMState) (cached : Option CacheRec) (p ch : ℚ)
    (h1 : (tryPrimary oracle k).success = none)
    (h2 : (tryJupiter cached oracle (tryPrimary oracle k).kEnd).success =
      some (p, ch)) :
    providerPhase tset oracle k st cached =
      ⟨⟨p, ch⟩, ⟨mapSet st.cache "solana" ⟨p, ch, tset⟩, st.retryCount⟩,
       (tryJupiter cached oracle (tryPrimary oracle k).kEnd).kEnd,
       (tryPrimary oracle k).trace ++
         (tryJupiter cached oracle (tryPrimary oracle k).kEnd).trace⟩ := by
  simp only [providerPhase, h1, h2]

/-- `providerPhase` when CoinGecko and Jupiter fail and Binance
succeeds. -/
theorem providerPhase_binance_success (tset : ℕ) (oracle : ℕ → FetchResult)
    (k : ℕ) (st : PMState) (cached : Option CacheRec) (p ch : ℚ)
    (h1 : (tryPrimary oracle k).success = none)
    (h2 : (tryJupiter cached oracle (tryPrimary oracle k).kEnd).success = none)
    (h3 : (tryBinance oracle
      (tryJupiter cached oracle (tryPrimary oracle k).kEnd).kEnd).success =
      some (p, ch)) :
    providerPhase tset oracle k st cached =
      ⟨⟨p, ch⟩, ⟨mapSet st.cache "solana" ⟨p, ch, tset⟩, st.retryCount⟩,
       (tryBinance oracle
         (tryJupiter cached oracle (tryPrimary oracle k).kEnd).kEnd).kEnd,
       (tryPrimary oracle k).trace ++
         (tryJupiter cached oracle (tryPrimary oracle k).kEnd).trace ++
         (tryBinance oracle
           (tryJupiter cached oracle (tryPrimary oracle k).kEnd).kEnd).trace⟩ := by
  simp only [providerPhase, h1, h2, h3]

/-- `providerPhase` when all three blocks fail: the record read at the
start (if any) or the default is returned, and the state is untouched. -/
theorem providerPhase_all_fail (tset : ℕ) (oracle : ℕ → FetchResult)
    (k : ℕ) (st : PMState) (cached : Option CacheRec)
    (h1 : (tryPrimary oracle k).success = none)
    (h2 : (tryJupiter cached oracle (tryPrimary oracle k).kEnd).success = none)
    (h3 : (tryBinance oracle
      (tryJupiter cached oracle (tryPrimary oracle k).kEnd).kEnd).success =
      none) :
    providerPhase tset oracle k st cached =
      ⟨fallbackQuote cached,
       st,
       (tryBinance oracle
         (tryJupiter cached oracle (tryPrimary oracle k).kEnd).kEnd).kEnd,
       (tryPrimary oracle k).trace ++
         (tryJupiter cached oracle (tryPrimary oracle k).kEnd).trace ++
         (tryBinance oracle
           (tryJupiter cached oracle (tryPrimary oracle k).kEnd).kEnd).trace⟩ := by
  cases cached with
  | none => simp only [providerPhase, h1, h2, h3, fallbackQuote]
  | some c => simp only [providerPhase, h1, h2, h3, fallbackQuote]

/-- The fresh-cache branch of `getSolanaPrice` (lines 62-65). -/
theorem getSolanaPrice_fresh (now tset : ℕ) (oracle : ℕ → FetchResult)
    (k : ℕ) (st : PMState) (c : CacheRec)
    (hm : mapGet st.cache "solana" = some c)
    (hf : now - c.timestamp < CACHE_DURATION) :
    getSolanaPrice now tset oracle k st =
      ⟨⟨c.price, c.change24h⟩, st, k, []⟩ := by
  simp only [getSolanaPrice, hm, if_pos hf]

/-- When the cache check fails, `getSolanaPrice` is the provider
chain applied to the record read at the start of the call. -/
theorem getSolanaPrice_stale (now tset : ℕ) (oracle : ℕ → FetchResult)
    (k : ℕ) (st : PMState)
    (h : cacheFresh now (mapGet st.cache "solana") = false) :
    getSolanaPrice now tset oracle k st =
      providerPhase tset oracle k st (mapGet st.cache "solana") := by
  cases hm : mapGet st.cache "solana" with
  | none => simp only [getSolanaPrice, hm]
  | some c =>
    rw [hm] at h
    simp only [cacheFresh] at h
    simp only [getSolanaPrice, hm, if_neg (of_decide_eq_false h)]

/-- `mapSet` on a singleton cache keyed by the same key replaces in
place. -/
theorem mapSet_single_same (r v : CacheRec) :
    mapSet [("solana", r)] "solana" v = [("solana", v)] := by
  simp [mapSet]

/-- The cache after `providerPhase` is the old cache or a `mapSet` of
the key `"solana"`. -/
theorem providerPhase_cache_cases (tset : ℕ) (oracle : ℕ → FetchResult)
    (k : ℕ) (st : PMState) (cached : Option CacheRec) :
    (providerPhase tset oracle k st cached).state.cache = st.cache ∨
    ∃ v, (providerPhase tset oracle k st cached).state.cache =
      mapSet st.cache "solana" v := by
  cases h1 : (tryPrimary oracle k).success with
  | some pc =>
    obtain ⟨p, ch⟩ := pc
    rw [providerPhase_primary_success tset oracle k st cached p ch h1]
    exact Or.inr ⟨_, rfl⟩
  | none =>
    cases h2 : (tryJupiter cached oracle (tryPrimary oracle k).kEnd).success with
    | some pc =>
      obtain ⟨p, ch⟩ := pc
      rw [providerPhase_jupiter_success tset oracle k st cached p ch h1 h2]
      exact Or.inr ⟨_, rfl⟩
    | none =>
      cases h3 : (tryBinance oracle
          (tryJupiter cached oracle (tryPrimary oracle k).kEnd).kEnd).success with
      | some pc =>
        obtain ⟨p, ch⟩ := pc
        rw [providerPhase_binance_success tset oracle k st cached p ch h1 h2 h3]
        exact Or.inr ⟨_, rfl⟩
      | none =>
        rw [providerPhase_all_fail tset oracle k st cached h1 h2 h3]
        exact Or.inl rfl

/-- The cache after `getSolanaPrice` is the old cache or a `mapSet` of
the key `"solana"`. -/
theorem getSolanaPrice_cache_cases (now tset : ℕ)
    (oracle : ℕ → FetchResult) (k : ℕ) (st : PMState) :
    (getSolanaPrice now tset oracle k st).state.cache = st.cache ∨
    ∃ v, (getSolanaPrice now tset oracle k st).state.cache =
      mapSet st.cache "solana" v := by
  cases hm : mapGet st.cache "solana" with
  | some c =>
    by_cases hf : now - c.timestamp < CACHE_DURATION
    · rw [getSolanaPrice_fresh now tset oracle k st c hm hf]
      exact Or.inl rfl
    · have hs : cacheFresh now (mapGet st.cache "solana") = false := by
        rw [hm]; simp [cacheFresh, hf]
      rw [getSolanaPrice_stale now tset oracle k st hs, hm]
      exact providerPhase_cache_cases ..
  | none =>
    have hs : cacheFresh now (mapGet st.cache "solana") = false := by
      rw [hm]; rfl
    rw [getSolanaPrice_stale now tset oracle k st hs, hm]
    exact providerPhase_cache_cases ..

/-! ## Claim theorems -/

/-- C1: whenever a cached record exists and `now - observedAt` is
strictly inside the 60-second freshness window, `getSolanaPrice` returns
exactly the cached price and change24h, performs no fetch (empty event
trace, oracle index unchanged) and leaves the whole manager state
unchanged. -/
theorem fresh_cache_serves_cached (now tset k : ℕ)
    (oracle : ℕ → FetchResult) (st : PMState) (c : CacheRec)
    (hm : mapGet st.cache "solana" = some c)
    (hf : now - c.timestamp < CACHE_DURATION) :
    getSolanaPrice now tset oracle k st =
      ⟨⟨c.price, c.change24h⟩, st, k, []⟩ :=
  getSolanaPrice_fresh now tset oracle k st c hm hf

/-- Witness for C1: a concrete fresh-cache call served from the cache
with no fetch. -/
theorem fresh_cache_serves_cached_witness :
    getSolanaPrice 30000 0 oracleAll500 5 ⟨[("solana", ⟨55, 2, 0⟩)], 0⟩ =
      ⟨⟨55, 2⟩, ⟨[("solana", ⟨55, 2, 0⟩)], 0⟩, 5, []⟩ :=
  fresh_cache_serves_cached 30000 0 5 oracleAll500
    ⟨[("solana", ⟨55, 2, 0⟩)], 0⟩ ⟨55, 2, 0⟩ rfl (by decide)

/-- C3: when the cache check fails and all three provider blocks fail,
`getSolanaPrice` returns the record read at the start of the call (even
stale) if one exists, the fixed default `{price: 100, change24h: 0}`
otherwise, and the manager state is untouched; the operation is a total
function, so the caller observes no error. -/
theorem all_fail_stale_or_default (now tset k : ℕ)
    (oracle : ℕ → FetchResult) (st : PMState)
    (hstale : cacheFresh now (mapGet st.cache "solana") = false)
    (h1 : (tryPrimary oracle k).success = none)
    (h2 : (tryJupiter (mapGet st.cache "solana") oracle
      (tryPrimary oracle k).kEnd).success = none)
    (h3 : (tryBinance oracle (tryJupiter (mapGet st.cache "solana") oracle
      (tryPrimary oracle k).kEnd).kEnd).success = none) :
    (∀ c, mapGet st.cache "solana" = some c →
      (getSolanaPrice now tset oracle k st).quote = ⟨c.price, c.change24h⟩) ∧
    (mapGet st.cache "solana" = none →
      (getSolanaPrice now tset oracle k st).quote = ⟨100, 0⟩) ∧
    (getSolanaPrice now tset oracle k st).state = st := by
  rw [getSolanaPrice_stale now tset oracle k st hstale,
      providerPhase_all_fail tset oracle k st (mapGet st.cache "solana") h1 h2 h3]
  refine ⟨?_, ?_, rfl⟩
  · intro c hc
    rw [hc]
    rfl
  · intro hc
    rw [hc]
    rfl

/-- Witness for C3: with every provider answering 500 and an empty
cache, the default pair is returned. -/
theorem all_fail_default_witness :
    (getSolanaPrice 0 0 oracleAll500 0 ⟨[], 0⟩).quote = ⟨100, 0⟩ :=
  (all_fail_stale_or_default 0 0 0 oracleAll500 ⟨[], 0⟩ rfl rfl rfl rfl).2.1 rfl

/-- C9: every state of the manager reachable from the initial state by
`getSolanaPrice` and `clearCache` calls has a cache holding at most one
record, and that record is keyed by the asset identifier `"solana"`. -/
theorem cache_single_record_invariant (st : PMState) (h : Reachable st) :
    st.cache = [] ∨ ∃ r, st.cache = [("solana", r)] := by
  induction h with
  | init => exact Or.inl rfl
  | step now tset k oracle st' _ ih =>
    rcases getSolanaPrice_cache_cases now tset oracle k st' with hc | ⟨v, hc⟩
    · rw [hc]
      exact ih
    · rcases ih with h0 | ⟨r, hr⟩
      · rw [hc, h0]
        exact Or.inr ⟨v, rfl⟩
      · rw [hc, hr, mapSet_single_same]
        exact Or.inr ⟨v, rfl⟩
  | clear st' _ _ => exact Or.inl rfl

/-- Witness for C9: the invariant at a concrete reachable state, one
`getSolanaPrice` call after the initial state. -/
theorem cache_invariant_witness :
    (getSolanaPrice 0 0 oracleAll500 0 ⟨[], 0⟩).state.cache = [] ∨
    ∃ r, (getSolanaPrice 0 0 oracleAll500 0 ⟨[], 0⟩).state.cache =
      [("solana", r)] :=
  cache_single_record_invariant _
    (Reachable.step 0 0 0 oracleAll500 ⟨[], 0⟩ Reachable.init)

/-- The CoinGecko block's trace is its retry run's trace, whatever the
outcome. -/
theorem tryPrimary_trace (oracle : ℕ → FetchResult) (k : ℕ) :
    (tryPrimary oracle k).trace = (fetchWithRetry coingeckoUrl oracle k).trace := by
  simp only [tryPrimary]
  repeat' split
  all_goals rfl

/-- The CoinGecko block's final oracle index is its retry run's. -/
theorem tryPrimary_kEnd (oracle : ℕ → FetchResult) (k : ℕ) :
    (tryPrimary oracle k).kEnd = (fetchWithRetry coingeckoUrl oracle k).kEnd := by
  simp only [tryPrimary]
  repeat' split
  all_goals rfl

/-- The Jupiter block's trace is its retry run's trace. -/
theorem tryJupiter_trace (cached : Option CacheRec)
    (oracle : ℕ → FetchResult) (k : ℕ) :
    (tryJupiter cached oracle k).trace =
      (fetchWithRetry jupiterUrl oracle k).trace := by
  simp only [tryJupiter]
  repeat' split
  all_goals rfl

/-- The Binance block's trace is its retry run's trace. -/
theorem tryBinance_trace (oracle : ℕ → FetchResult) (k : ℕ) :
    (tryBinance oracle k).trace =
      (fetchWithRetry binanceUrl oracle k).trace := by
  simp only [tryBinance]
  repeat' split
  all_goals rfl

/-- All fetches of the CoinGecko block hit the CoinGecko URL, between 1
and 4 of them. -/
theorem tryPrimary_urls (oracle : ℕ → FetchResult) (k : ℕ) :
    ∃ n, 1 ≤ n ∧ n ≤ MAX_RETRIES + 1 ∧
      fetchUrls (tryPrimary oracle k).trace = List.replicate n coingeckoUrl := by
  rw [tryPrimary_trace]
  exact fetchWithRetry_urls coingeckoUrl oracle k

/-- All fetches of the Jupiter block hit the Jupiter URL, between 1 and
4 of them. -/
theorem tryJupiter_urls (cached : Option CacheRec)
    (oracle : ℕ → FetchResult) (k : ℕ) :
    ∃ n, 1 ≤ n ∧ n ≤ MAX_RETRIES + 1 ∧
      fetchUrls (tryJupiter cached oracle k).trace =
        List.replicate n jupiterUrl := by
  rw [tryJupiter_trace]
  exact fetchWithRetry_urls jupiterUrl oracle k

/-- All fetches of the Binance block hit the Binance URL, between 1 and
4 of them. -/
theorem tryBinance_urls (oracle : ℕ → FetchResult) (k : ℕ) :
    ∃ n, 1 ≤ n ∧ n ≤ MAX_RETRIES + 1 ∧
      fetchUrls (tryBinance oracle k).trace =
        List.replicate n binanceUrl := by
  rw [tryBinance_trace]
  exact fetchWithRetry_urls binanceUrl oracle k

/-- C2: on a cache miss or a stale cache, `getSolanaPrice` fetches the
providers in the fixed order CoinGecko, Jupiter, Binance (every fetched
URL sequence is CoinGecko fetches, then Jupiter fetches, then Binance
fetches, at most 4 each); it stops at the first block that succeeds,
overwrites the cache with the new record and returns the new value; in
particular on a CoinGecko success neither Jupiter nor Binance is ever
fetched, and on a Jupiter success Binance is never fetched. -/
theorem provider_chain_order_and_first_success (now tset k : ℕ)
    (oracle : ℕ → FetchResult) (st : PMState)
    (hstale : cacheFresh now (mapGet st.cache "solana") = false) :
    (∃ n1 n2 n3,
      fetchUrls (getSolanaPrice now tset oracle k st).trace =
        List.replicate n1 coingeckoUrl ++ List.replicate n2 jupiterUrl ++
          List.replicate n3 binanceUrl ∧
      1 ≤ n1 ∧ n1 ≤ MAX_RETRIES + 1 ∧ n2 ≤ MAX_RETRIES + 1 ∧
      n3 ≤ MAX_RETRIES + 1) ∧
    (∀ p ch, (tryPrimary oracle k).success = some (p, ch) →
      getSolanaPrice now tset oracle k st =
        ⟨⟨p, ch⟩, ⟨mapSet st.cache "solana" ⟨p, ch, tset⟩, 0⟩,
         (tryPrimary oracle k).kEnd, (tryPrimary oracle k).trace⟩ ∧
      jupiterUrl ∉ fetchUrls (getSolanaPrice now tset oracle k st).trace ∧
      binanceUrl ∉ fetchUrls (getSolanaPrice now tset oracle k st).trace) ∧
    (∀ p ch, (tryPrimary oracle k).success = none →
      (tryJupiter (mapGet st.cache "solana") oracle
        (tryPrimary oracle k).kEnd).success = some (p, ch) →
      (getSolanaPrice now tset oracle k st).quote = ⟨p, ch⟩ ∧
      (getSolanaPrice now tset oracle k st).state =
        ⟨mapSet st.cache "solana" ⟨p, ch, tset⟩, st.retryCount⟩ ∧
      binanceUrl ∉ fetchUrls (getSolanaPrice now tset oracle k st).trace) ∧
    (∀ p ch, (tryPrimary oracle k).success = none →
      (tryJupiter (mapGet st.cache "solana") oracle
        (tryPrimary oracle k).kEnd).success = none →
      (tryBinance oracle (tryJupiter (mapGet st.cache "solana") oracle
        (tryPrimary oracle k).kEnd).kEnd).success = some (p, ch) →
      (getSolanaPrice now tset oracle k st).quote = ⟨p, ch⟩ ∧
      (getSolanaPrice now tset oracle k st).state =
        ⟨mapSet st.cache "solana" ⟨p, ch, tset⟩, st.retryCount⟩) := by
  have hstep := getSolanaPrice_stale now tset oracle k st hstale
  refine ⟨?_, ?_, ?_, ?_⟩
  · obtain ⟨m1, hm1a, hm1b, hu1⟩ := tryPrimary_urls oracle k
    cases h1 : (tryPrimary oracle k).success with
    | some pc =>
      obtain ⟨p, ch⟩ := pc
      rw [hstep, providerPhase_primary_success tset oracle k st _ p ch h1]
      exact ⟨m1, 0, 0, by simp [hu1], hm1a, hm1b, by omega, by omega⟩
    | none =>
      obtain ⟨m2, hm2a, hm2b, hu2⟩ :=
        tryJupiter_urls (mapGet st.cache "solana") oracle
          (tryPrimary oracle k).kEnd
      cases h2 : (tryJupiter (mapGet st.cache "solana") oracle
          (tryPrimary oracle k).kEnd).success with
      | some pc =>
        obtain ⟨p, ch⟩ := pc
        rw [hstep, providerPhase_jupiter_success tset oracle k st _ p ch h1 h2]
        exact ⟨m1, m2, 0, by simp [hu1, hu2], hm1a, hm1b, hm2b, by omega⟩
      | none =>
        obtain ⟨m3, hm3a, hm3b, hu3⟩ :=
          tryBinance_urls oracle (tryJupiter (mapGet st.cache "solana")
            oracle (tryPrimary oracle k).kEnd).kEnd
        cases h3 : (tryBinance oracle (tryJupiter (mapGet st.cache "solana")
            oracle (tryPrimary oracle k).kEnd).kEnd).success with
        | some pc =>
          obtain ⟨p, ch⟩ := pc
          rw [hstep, providerPhase_binance_success tset oracle k st _ p ch h1 h2 h3]
          exact ⟨m1, m2, m3, by simp [hu1, hu2, hu3], hm1a, hm1b, hm2b, hm3b⟩
        | none =>
          rw [hstep, providerPhase_all_fail tset oracle k st _ h1 h2 h3]
          exact ⟨m1, m2, m3, by simp [hu1, hu2, hu3], hm1a, hm1b, hm2b, hm3b⟩
  · intro p ch h1
    have heq := hstep.trans (providerPhase_primary_success tset oracle k st _ p ch h1)
    obtain ⟨m1, _, _, hu1⟩ := tryPrimary_urls oracle k
    refine ⟨heq, ?_, ?_⟩
    · rw [heq]
      show jupiterUrl ∉ fetchUrls (tryPrimary oracle k).trace
      rw [hu1]
      intro hmem
      exact absurd (List.eq_of_mem_replicate hmem) (by decide)
    · rw [heq]
      show binanceUrl ∉ fetchUrls (tryPrimary oracle k).trace
      rw [hu1]
      intro hmem
      exact absurd (List.eq_of_mem_replicate hmem) (by decide)
  · intro p ch h1 h2
    have heq := hstep.trans (providerPhase_jupiter_success tset oracle k st _ p ch h1 h2)
    refine ⟨by rw [heq], by rw [heq], ?_⟩
    rw [heq]
    show binanceUrl ∉ fetchUrls ((tryPrimary oracle k).trace ++
      (tryJupiter (mapGet st.cache "solana") oracle
        (tryPrimary oracle k).kEnd).trace)
    obtain ⟨m1, _, _, hu1⟩ := tryPrimary_urls oracle k
    obtain ⟨m2, _, _, hu2⟩ :=
      tryJupiter_urls (mapGet st.cache "solana") oracle
        (tryPrimary oracle k).kEnd
    rw [fetchUrls_append, hu1, hu2]
    intro hmem
    rcases List.mem_append.mp hmem with h | h
    · exact absurd (List.eq_of_mem_replicate h) (by decide)
    · exact absurd (List.eq_of_mem_replicate h) (by decide)
  · intro p ch h1 h2 h3
    have heq := hstep.trans (providerPhase_binance_success tset oracle k st _ p ch h1 h2 h3)
    exact ⟨by rw [heq], by rw [heq]⟩

/-- Witness for C2: a concrete stale-cache call in which CoinGecko
succeeds at once, so exactly one fetch happens, the cache is overwritten
and the new pair returned. -/
theorem provider_chain_witness :
    getSolanaPrice 0 99 oracleCgSuccess 0 ⟨[], 0⟩ =
      ⟨⟨17, -5/2⟩, ⟨[("solana", ⟨17, -5/2, 99⟩)], 0⟩, 1,
       [Ev.fetch coingeckoUrl]⟩ :=
  ((provider_chain_order_and_first_success 0 99 0 oracleCgSuccess
    ⟨[], 0⟩ rfl).2.1 17 (-5/2) rfl).1

/-- One loop iteration on a 429 response: fetch, rate-limit sleep, next
iteration. -/
theorem fetchLoop_429_step (url : String) (oracle : ℕ → FetchResult)
    (fuel i k : ℕ) (r : Response) (ho : oracle k = FetchResult.resp r)
    (h429 : r.status = 429) :
    fetchLoop url oracle (fuel + 1) i k =
      ⟨(fetchLoop url oracle fuel (i + 1) (k + 1)).result,
       (fetchLoop url oracle fuel (i + 1) (k + 1)).kEnd,
       Ev.fetch url :: Ev.rateWait (rateLimitWait r) ::
         (fetchLoop url oracle fuel (i + 1) (k + 1)).trace⟩ := by
  simp only [fetchLoop, ho, if_pos h429]

/-- One loop iteration on a non-final transport failure: fetch, backoff
sleep, next iteration. -/
theorem fetchLoop_transport_step (url : String) (oracle : ℕ → FetchResult)
    (fuel i k : ℕ) (ho : oracle k = FetchResult.transportFail)
    (hi : i < MAX_RETRIES) :
    fetchLoop url oracle (fuel + 1) i k =
      ⟨(fetchLoop url oracle fuel (i + 1) (k + 1)).result,
       (fetchLoop url oracle fuel (i + 1) (k + 1)).kEnd,
       Ev.fetch url :: Ev.backoffWait (RETRY_DELAY * 2 ^ i) ::
         (fetchLoop url oracle fuel (i + 1) (k + 1)).trace⟩ := by
  simp only [fetchLoop, ho, if_pos hi]

/-- One loop iteration on a transport failure at the final attempt
index: fetch, no sleep, next iteration (which exhausts the loop). -/
theorem fetchLoop_transport_step_last (url : String)
    (oracle : ℕ → FetchResult) (fuel i k : ℕ)
    (ho : oracle k = FetchResult.transportFail) (hi : ¬ i < MAX_RETRIES) :
    fetchLoop url oracle (fuel + 1) i k =
      ⟨(fetchLoop url oracle fuel (i + 1) (k + 1)).result,
       (fetchLoop url oracle fuel (i + 1) (k + 1)).kEnd,
       Ev.fetch url :: (fetchLoop url oracle fuel (i + 1) (k + 1)).trace⟩ := by
  simp only [fetchLoop, ho, if_neg hi]

/-- A run all of whose attempts are transport failures throws, consumes
`fuel` fetches and leaves the `transportTrace`. -/
theorem fetchLoop_all_transport (url : String) (oracle : ℕ → FetchResult) :
    ∀ fuel i k, (∀ j, j < fuel → oracle (k + j) = FetchResult.transportFail) →
      fetchLoop url oracle fuel i k = ⟨none, k + fuel, transportTrace url i fuel⟩
  | 0, i, k, _ => by simp [fetchLoop, transportTrace]
  | fuel + 1, i, k, h => by
    have h0 : oracle k = FetchResult.transportFail := by
      simpa using h 0 (Nat.succ_pos _)
    have ih := fetchLoop_all_transport url oracle fuel (i + 1) (k + 1)
      (fun j hj => by
        have := h (j + 1) (by omega)
        simpa [Nat.add_assoc, Nat.add_comm 1 j] using this)
    by_cases hi : i < MAX_RETRIES
    · rw [fetchLoop_transport_step url oracle fuel i k h0 hi, ih]
      simp only [transportTrace, if_pos hi, RetryRun.mk.injEq]
      exact ⟨trivial, by omega, trivial⟩
    · rw [fetchLoop_transport_step_last url oracle fuel i k h0 hi, ih]
      simp only [transportTrace, if_neg hi, RetryRun.mk.injEq]
      exact ⟨trivial, by omega, trivial⟩

/-- The CoinGecko block when its retry run throws. -/
theorem tryPrimary_throw (oracle : ℕ → FetchResult) (k : ℕ)
    (h : (fetchWithRetry coingeckoUrl oracle k).result = none) :
    tryPrimary oracle k =
      ⟨none, (fetchWithRetry coingeckoUrl oracle k).kEnd,
       (fetchWithRetry coingeckoUrl oracle k).trace⟩ := by
  simp only [tryPrimary, h]

/-- C4 counterexample: with a rate-limited first attempt (no
`Retry-After`) followed by transport failures, the first backoff sleep
is `2000 = RETRY_DELAY * 2 ^ 1` ms, not `RETRY_DELAY * 2 ^ 0`: the
rate-limited attempt advanced the exponent, so rate-limited attempts DO
count toward the growth of the exponential backoff delay. -/
theorem rate_limit_backoff_growth_cex : ¬ rateLimitedDoesNotCount := by
  intro h
  have h0 := h "u" oracleRateLimitedThenFail 0 0 2000 (by rfl)
  exact absurd h0 (by decide)

/-- C4 (amended): within `fetchWithRetry`, every attempt answered with
HTTP 429 is followed by a rate-limit sleep before the next attempt —
`parseInt(Retry-After) * 1000` ms when the header is present (so
`Retry-After: 2` sleeps `2000` ms) and `RETRY_DELAY = 1000` ms when it is
absent — and the sleep is not exponential; however the attempt index
advances on a rate-limited attempt, so a 429 at attempt 0 followed by a
transport failure at attempt 1 backs off `RETRY_DELAY * 2 ^ 1` ms, not
`RETRY_DELAY * 2 ^ 0`. -/
theorem rate_limit_wait_amended :
    (∀ (url : String) (oracle : ℕ → FetchResult) (fuel i k : ℕ)
      (r : Response), oracle k = FetchResult.resp r → r.status = 429 →
      (fetchLoop url oracle (fuel + 1) i k).trace =
        Ev.fetch url :: Ev.rateWait (rateLimitWait r) ::
          (fetchLoop url oracle fuel (i + 1) (k + 1)).trace) ∧
    (∀ r : Response, r.retryAfter = some "2" → rateLimitWait r = 2000) ∧
    (∀ r : Response, r.retryAfter = none → rateLimitWait r = RETRY_DELAY) ∧
    (∀ (url : String) (oracle : ℕ → FetchResult) (k : ℕ) (r : Response),
      oracle k = FetchResult.resp r → r.status = 429 →
      oracle (k + 1) = FetchResult.transportFail →
      ∃ rest, (fetchWithRetry url oracle k).trace =
        Ev.fetch url :: Ev.rateWait (rateLimitWait r) ::
        Ev.fetch url :: Ev.backoffWait (RETRY_DELAY * 2 ^ 1) :: rest) := by
  refine ⟨?_, ?_, ?_, ?_⟩
  · intro url oracle fuel i k r ho h429
    rw [fetchLoop_429_step url oracle fuel i k r ho h429]
  · intro r h
    obtain ⟨s, ra, b⟩ := r
    cases h
    rfl
  · intro r h
    obtain ⟨s, ra, b⟩ := r
    cases h
    rfl
  · intro url oracle k r ho h429 htf
    refine ⟨(fetchLoop url oracle 2 (0 + 1 + 1) (k + 1 + 1)).trace, ?_⟩
    show (fetchLoop url oracle (MAX_RETRIES + 1) 0 k).trace = _
    rw [fetchLoop_429_step url oracle MAX_RETRIES 0 k r ho h429,
        show MAX_RETRIES = 2 + 1 from rfl,
        fetchLoop_transport_step url oracle 2 (0 + 1) (k + 1) htf (by decide)]

/-- Witness for C4 (amended): a concrete run whose first attempt is
rate-limited with `Retry-After: 2` sleeps exactly 2000 ms before the
second attempt. -/
theorem rate_limit_wait_amended_witness :
    rateLimitWait ⟨429, some "2", none⟩ = 2000 :=
  rate_limit_wait_amended.2.1 ⟨429, some "2", none⟩ rfl

/-- C5: `fetchWithRetry` makes at most `MAX_RETRIES + 1 = 4` fetches per
run; a transport failure at attempt index `i < MAX_RETRIES` (the earlier
attempts having continued) is followed by a backoff sleep of
`RETRY_DELAY * 2 ^ i` ms before the next attempt; and when all 4
attempts of the CoinGecko block fail with transport errors, the failure
surfaces to the resolver, which fetches Jupiter next. -/
theorem retry_budget_and_backoff :
    MAX_RETRIES + 1 = 4 ∧
    (∀ (url : String) (oracle : ℕ → FetchResult) (k : ℕ),
      countFetch (fetchWithRetry url oracle k).trace ≤ MAX_RETRIES + 1) ∧
    (∀ (url : String) (oracle : ℕ → FetchResult) (k i : ℕ),
      i < MAX_RETRIES →
      (∀ j, j < i → continuesB (oracle (k + j)) = true) →
      oracle (k + i) = FetchResult.transportFail →
      ∃ pre post,
        (fetchWithRetry url oracle k).trace =
          pre ++ Ev.fetch url :: Ev.backoffWait (RETRY_DELAY * 2 ^ i) :: post ∧
        countFetch pre = i) ∧
    (∀ (now tset k : ℕ) (oracle : ℕ → FetchResult) (st : PMState),
      cacheFresh now (mapGet st.cache "solana") = false →
      (∀ j, j < 4 → oracle (k + j) = FetchResult.transportFail) →
      ∃ rest, (getSolanaPrice now tset oracle k st).trace =
        Ev.fetch coingeckoUrl :: Ev.backoffWait 1000 ::
        Ev.fetch coingeckoUrl :: Ev.backoffWait 2000 ::
        Ev.fetch coingeckoUrl :: Ev.backoffWait 4000 ::
        Ev.fetch coingeckoUrl :: Ev.fetch jupiterUrl :: rest) := by
  refine ⟨rfl, ?_, ?_, ?_⟩
  · intro url oracle k
    obtain ⟨n, _, hn, hu⟩ := fetchWithRetry_urls url oracle k
    simp only [countFetch, hu, List.length_replicate]
    exact hn
  · intro url oracle k i hi hcont hfail
    exact fetchWithRetry_backoff_at url oracle k i hi hcont hfail
  · intro now tset k oracle st hstale hfail
    have hrun : fetchWithRetry coingeckoUrl oracle k =
        ⟨none, k + (MAX_RETRIES + 1),
         transportTrace coingeckoUrl 0 (MAX_RETRIES + 1)⟩ :=
      fetchLoop_all_transport coingeckoUrl oracle (MAX_RETRIES + 1) 0 k
        (fun j hj => hfail j hj)
    have htp : tryPrimary oracle k =
        ⟨none, k + (MAX_RETRIES + 1),
         transportTrace coingeckoUrl 0 (MAX_RETRIES + 1)⟩ := by
      simp only [tryPrimary, hrun]
    have h1 : (tryPrimary oracle k).success = none := by rw [htp]
    obtain ⟨rest2, hrest2⟩ : ∃ r2,
        (tryJupiter (mapGet st.cache "solana") oracle
          (tryPrimary oracle k).kEnd).trace = Ev.fetch jupiterUrl :: r2 := by
      rw [tryJupiter_trace]
      exact fetchLoop_head jupiterUrl oracle (MAX_RETRIES + 1) 0 _ (by omega)
    have hshape : ∃ X,
        (providerPhase tset oracle k st (mapGet st.cache "solana")).trace =
          (tryPrimary oracle k).trace ++
            ((tryJupiter (mapGet st.cache "solana") oracle
              (tryPrimary oracle k).kEnd).trace ++ X) := by
      cases h2 : (tryJupiter (mapGet st.cache "solana") oracle
          (tryPrimary oracle k).kEnd).success with
      | some pc =>
        obtain ⟨p, ch⟩ := pc
        rw [providerPhase_jupiter_success tset oracle k st _ p ch h1 h2]
        exact ⟨[], by simp⟩
      | none =>
        cases h3 : (tryBinance oracle (tryJupiter (mapGet st.cache "solana")
            oracle (tryPrimary oracle k).kEnd).kEnd).success with
        | some pc =>
          obtain ⟨p, ch⟩ := pc
          rw [providerPhase_binance_success tset oracle k st _ p ch h1 h2 h3]
          exact ⟨(tryBinance oracle (tryJupiter (mapGet st.cache "solana")
            oracle (tryPrimary oracle k).kEnd).kEnd).trace, by simp⟩
        | none =>
          rw [providerPhase_all_fail tset oracle k st _ h1 h2 h3]
          exact ⟨(tryBinance oracle (tryJupiter (mapGet st.cache "solana")
            oracle (tryPrimary oracle k).kEnd).kEnd).trace, by simp⟩
    obtain ⟨X, hX⟩ := hshape
    refine ⟨rest2 ++ X, ?_⟩
    rw [getSolanaPrice_stale now tset oracle k st hstale, hX, hrest2, htp]
    rfl

/-- Witness for C5: all four CoinGecko attempts fail with transport
errors and the run proceeds to a Jupiter fetch, with the backoff sleeps
1000, 2000, 4000 ms in between. -/
theorem retry_budget_witness :
    ∃ rest, (getSolanaPrice 0 0 oracleAllTransportFail 0 ⟨[], 0⟩).trace =
      Ev.fetch coingeckoUrl :: Ev.backoffWait 1000 ::
      Ev.fetch coingeckoUrl :: Ev.backoffWait 2000 ::
      Ev.fetch coingeckoUrl :: Ev.backoffWait 4000 ::
      Ev.fetch coingeckoUrl :: Ev.fetch jupiterUrl :: rest :=
  retry_budget_and_backoff.2.2.2 0 0 0 oracleAllTransportFail ⟨[], 0⟩ rfl
    (fun _ _ => rfl)

/-- Once the CoinGecko block has failed, the total trace is the
CoinGecko trace, then the Jupiter trace, then possibly more. -/
theorem providerPhase_trace_p1_fail (tset : ℕ) (oracle : ℕ → FetchResult)
    (k : ℕ) (st : PMState) (cached : Option CacheRec)
    (h1 : (tryPrimary oracle k).success = none) :
    ∃ X, (providerPhase tset oracle k st cached).trace =
      (tryPrimary oracle k).trace ++
        ((tryJupiter cached oracle (tryPrimary oracle k).kEnd).trace ++ X) := by
  cases h2 : (tryJupiter cached oracle (tryPrimary oracle k).kEnd).success with
  | some pc =>
    obtain ⟨p, ch⟩ := pc
    rw [providerPhase_jupiter_success tset oracle k st cached p ch h1 h2]
    exact ⟨[], by simp⟩
  | none =>
    cases h3 : (tryBinance oracle
        (tryJupiter cached oracle (tryPrimary oracle k).kEnd).kEnd).success with
    | some pc =>
      obtain ⟨p, ch⟩ := pc
      rw [providerPhase_binance_success tset oracle k st cached p ch h1 h2 h3]
      exact ⟨(tryBinance oracle
        (tryJupiter cached oracle (tryPrimary oracle k).kEnd).kEnd).trace,
        by simp⟩
    | none =>
      rw [providerPhase_all_fail tset oracle k st cached h1 h2 h3]
      exact ⟨(tryBinance oracle
        (tryJupiter cached oracle (tryPrimary oracle k).kEnd).kEnd).trace,
        by simp⟩

/-- C6 counterexample: a 2xx CoinGecko response with a numeric `usd` but
NO `usd_24h_change` field is treated as a success whose `change24h` is a
silently substituted `0` — refuting "a malformed or missing field
(including the 24h-change field) is treated as a failure of that
attempt, never silently converted to a zero value". -/
theorem change_field_zero_cex :
    jget (jget (some bodyCgNoChange) "solana") "usd_24h_change" = none ∧
    (tryPrimary oracleCgNoChange 0).success = some (123, 0) ∧
    getSolanaPrice 0 50 oracleCgNoChange 0 ⟨[], 0⟩ =
      ⟨⟨123, 0⟩, ⟨[("solana", ⟨123, 0, 50⟩)], 0⟩, 1, [Ev.fetch coingeckoUrl]⟩ :=
  ⟨rfl, rfl, rfl⟩

/-- C6 (amended): each adapter validates its price-carrying fields
before declaring success — CoinGecko requires `solana` truthy and
`solana.usd` of number type, Jupiter requires `data.SOL.price` truthy,
Binance requires `lastPrice` and `priceChangePercent` truthy — and a
2xx response failing its guard fails the attempt; but CoinGecko's
24h-change field is not validated: when it is missing the attempt still
succeeds, with `change24h` silently set to `0`. -/
theorem validation_amended :
    (∀ (oracle : ℕ → FetchResult) (k : ℕ) (r : Response) (data : Json),
      (fetchWithRetry coingeckoUrl oracle k).result = some r →
      respOk r = true → r.body = some data →
      (truthy (jget (some data) "solana") &&
        isNumber (jget (jget (some data) "solana") "usd")) = false →
      (tryPrimary oracle k).success = none) ∧
    (∀ (oracle : ℕ → FetchResult) (k : ℕ) (r : Response) (data : Json),
      (fetchWithRetry coingeckoUrl oracle k).result = some r →
      respOk r = true → r.body = some data →
      (truthy (jget (some data) "solana") &&
        isNumber (jget (jget (some data) "solana") "usd")) = true →
      jget (jget (some data) "solana") "usd_24h_change" = none →
      (tryPrimary oracle k).success =
        some (numVal (jget (jget (some data) "solana") "usd"), 0)) ∧
    (∀ (cached : Option CacheRec) (oracle : ℕ → FetchResult) (k : ℕ)
      (r : Response) (data : Json),
      (fetchWithRetry jupiterUrl oracle k).result = some r →
      respOk r = true → r.body = some data →
      truthy (jget (jget (jget (some data) "data") "SOL") "price") = false →
      (tryJupiter cached oracle k).success = none) ∧
    (∀ (oracle : ℕ → FetchResult) (k : ℕ) (r : Response) (data : Json),
      (fetchWithRetry binanceUrl oracle k).result = some r →
      respOk r = true → r.body = some data →
      (truthy (jget (some data) "lastPrice") &&
        truthy (jget (some data) "priceChangePercent")) = false →
      (tryBinance oracle k).success = none) := by
  refine ⟨?_, ?_, ?_, ?_⟩
  · intro oracle k r data hres hok hbody hguard
    simp [tryPrimary, hres, hok, hbody, hguard]
  · intro oracle k r data hres hok hbody hguard hchange
    simp [tryPrimary, hres, hok, hbody, hguard, hchange, jsOrZero]
  · intro cached oracle k r data hres hok hbody hguard
    simp [tryJupiter, hres, hok, hbody, hguard]
  · intro oracle k r data hres hok hbody hguard
    simp [tryBinance, hres, hok, hbody, hguard]

/-- Witness for C6 (amended): a 2xx CoinGecko response whose `usd` field
is the string `"abc"` fails the attempt. -/
theorem validation_amended_witness :
    (tryPrimary oracleCgUsdString 0).success = none :=
  validation_amended.1 oracleCgUsdString 0 ⟨200, none, some bodyCgUsdString⟩
    bodyCgUsdString rfl rfl rfl rfl

/-- C7: a response whose status is not 429 ends the retry loop at once —
`fetchWithRetry` returns it after a single fetch, no sleeps, spending
none of the remaining retry budget — and in the provider chain a
CoinGecko response that is non-2xx, or whose body fails to parse, or
parses without a numeric `usd`, is followed immediately by a Jupiter
fetch (one CoinGecko fetch, then a Jupiter fetch). -/
theorem non429_no_retry_next_provider :
    (∀ (url : String) (oracle : ℕ → FetchResult) (k : ℕ) (r : Response),
      oracle k = FetchResult.resp r → r.status ≠ 429 →
      fetchWithRetry url oracle k = ⟨some r, k + 1, [Ev.fetch url]⟩) ∧
    (∀ (now tset k : ℕ) (oracle : ℕ → FetchResult) (st : PMState)
      (r : Response),
      cacheFresh now (mapGet st.cache "solana") = false →
      oracle k = FetchResult.resp r → r.status ≠ 429 →
      (respOk r = false ∨ r.body = none ∨
        ∃ data, r.body = some data ∧
          (truthy (jget (some data) "solana") &&
            isNumber (jget (jget (some data) "solana") "usd")) = false) →
      ∃ rest, (getSolanaPrice now tset oracle k st).trace =
        Ev.fetch coingeckoUrl :: Ev.fetch jupiterUrl :: rest) := by
  have immediate : ∀ (url : String) (oracle : ℕ → FetchResult) (k : ℕ)
      (r : Response), oracle k = FetchResult.resp r → r.status ≠ 429 →
      fetchWithRetry url oracle k = ⟨some r, k + 1, [Ev.fetch url]⟩ := by
    intro url oracle k r ho h429
    show fetchLoop url oracle (MAX_RETRIES + 1) 0 k = _
    simp only [fetchLoop, ho, if_neg h429]
  refine ⟨immediate, ?_⟩
  intro now tset k oracle st r hstale ho h429 hbad
  have hrun := immediate coingeckoUrl oracle k r ho h429
  have h1 : (tryPrimary oracle k).success = none := by
    rcases hbad with hnok | hnob | ⟨data, hb, hg⟩
    · simp [tryPrimary, hrun, hnok]
    · simp [tryPrimary, hrun, hnob]
    · by_cases hok : respOk r = true
      · simp [tryPrimary, hrun, hok, hb, hg]
      · simp [tryPrimary, hrun, hok]
  have htr1 : (tryPrimary oracle k).trace = [Ev.fetch coingeckoUrl] := by
    rw [tryPrimary_trace, hrun]
  obtain ⟨rest2, hrest2⟩ : ∃ r2,
      (tryJupiter (mapGet st.cache "solana") oracle
        (tryPrimary oracle k).kEnd).trace = Ev.fetch jupiterUrl :: r2 := by
    rw [tryJupiter_trace]
    exact fetchLoop_head jupiterUrl oracle (MAX_RETRIES + 1) 0 _ (by omega)
  obtain ⟨X, hX⟩ := providerPhase_trace_p1_fail tset oracle k st
    (mapGet st.cache "solana") h1
  refine ⟨rest2 ++ X, ?_⟩
  rw [getSolanaPrice_stale now tset oracle k st hstale, hX, hrest2, htr1]
  rfl

/-- Witness for C7: CoinGecko answers 500 and the very next fetch is
Jupiter. -/
theorem non429_witness :
    ∃ rest, (getSolanaPrice 0 0 oracleAll500 0 ⟨[], 0⟩).trace =
      Ev.fetch coingeckoUrl :: Ev.fetch jupiterUrl :: rest :=
  non429_no_retry_next_provider.2 0 0 0 oracleAll500 ⟨[], 0⟩
    ⟨500, none, none⟩ rfl rfl (by decide) (Or.inl rfl)

/-- C8: when CoinGecko fails and Jupiter succeeds with a truthy numeric
price `p`, the call returns `p` paired with the `change24h` of the
record cached at the start of the call (or `0` if none existed), and the
cache is overwritten with that pair. -/
theorem jupiter_reuses_cached_change (now tset k : ℕ)
    (oracle : ℕ → FetchResult) (st : PMState) (r : Response) (data : Json)
    (p : ℚ)
    (hstale : cacheFresh now (mapGet st.cache "solana") = false)
    (h1 : (tryPrimary oracle k).success = none)
    (hres : (fetchWithRetry jupiterUrl oracle
      (tryPrimary oracle k).kEnd).result = some r)
    (hok : respOk r = true) (hbody : r.body = some data)
    (hprice : jget (jget (jget (some data) "data") "SOL") "price" =
      some (Json.num p))
    (hp0 : p ≠ 0) :
    (∀ c, mapGet st.cache "solana" = some c →
      (getSolanaPrice now tset oracle k st).quote = ⟨p, c.change24h⟩ ∧
      (getSolanaPrice now tset oracle k st).state.cache =
        mapSet st.cache "solana" ⟨p, c.change24h, tset⟩) ∧
    (mapGet st.cache "solana" = none →
      (getSolanaPrice now tset oracle k st).quote = ⟨p, 0⟩ ∧
      (getSolanaPrice now tset oracle k st).state.cache =
        mapSet st.cache "solana" ⟨p, 0, tset⟩) := by
  have htruthy : truthy (some (Json.num p)) = true := by
    simpa [truthy, bne_iff_ne] using hp0
  have h2 : (tryJupiter (mapGet st.cache "solana") oracle
      (tryPrimary oracle k).kEnd).success =
      some (p, jsOptOrZero ((mapGet st.cache "solana").map CacheRec.change24h)) := by
    simp [tryJupiter, hres, hok, hbody, hprice, htruthy, numVal]
  have heq := (getSolanaPrice_stale now tset oracle k st hstale).trans
    (providerPhase_jupiter_success tset oracle k st (mapGet st.cache "solana")
      p (jsOptOrZero ((mapGet st.cache "solana").map CacheRec.change24h)) h1 h2)
  refine ⟨?_, ?_⟩
  · intro c hc
    rw [hc] at heq
    exact ⟨by rw [heq]; rfl, by rw [heq]; rfl⟩
  · intro hc
    rw [hc] at heq
    exact ⟨by rw [heq]; rfl, by rw [heq]; rfl⟩

/-- Witness for C8: CoinGecko 500, Jupiter succeeds with price 33 while
the stale cache holds change24h 2; the call returns (33, 2) and caches
it. -/
theorem jupiter_change_witness :
    (getSolanaPrice 70000 99 oracleJupiterAfter500 0
      ⟨[("solana", ⟨55, 2, 0⟩)], 7⟩).quote = ⟨33, 2⟩ ∧
    (getSolanaPrice 70000 99 oracleJupiterAfter500 0
      ⟨[("solana", ⟨55, 2, 0⟩)], 7⟩).state.cache = [("solana", ⟨33, 2, 99⟩)] :=
  (jupiter_reuses_cached_change 70000 99 0 oracleJupiterAfter500
    ⟨[("solana", ⟨55, 2, 0⟩)], 7⟩ ⟨200, none, some bodyJup33⟩ bodyJup33 33
    rfl rfl rfl rfl rfl rfl (by norm_num)).1 ⟨55, 2, 0⟩ rfl

/-- C10: a 2xx Jupiter response whose `data.SOL.price` is exactly `0`
fails the attempt (JS truthiness treats `0` as falsy although it is a
valid number) and the run proceeds to a Binance fetch. -/
theorem jupiter_zero_price_falls_through (now tset k : ℕ)
    (oracle : ℕ → FetchResult) (st : PMState) (r : Response) (data : Json)
    (hstale : cacheFresh now (mapGet st.cache "solana") = false)
    (h1 : (tryPrimary oracle k).success = none)
    (hres : (fetchWithRetry jupiterUrl oracle
      (tryPrimary oracle k).kEnd).result = some r)
    (hok : respOk r = true) (hbody : r.body = some data)
    (hprice : jget (jget (jget (some data) "data") "SOL") "price" =
      some (Json.num 0)) :
    (tryJupiter (mapGet st.cache "solana") oracle
      (tryPrimary oracle k).kEnd).success = none ∧
    ∃ rest, (getSolanaPrice now tset oracle k st).trace =
      (tryPrimary oracle k).trace ++
        ((tryJupiter (mapGet st.cache "solana") oracle
          (tryPrimary oracle k).kEnd).trace ++
          (Ev.fetch binanceUrl :: rest)) := by
  have h2 : (tryJupiter (mapGet st.cache "solana") oracle
      (tryPrimary oracle k).kEnd).success = none := by
    simp [tryJupiter, hres, hok, hbody, hprice, truthy]
  obtain ⟨rest3, hrest3⟩ : ∃ r3,
      (tryBinance oracle (tryJupiter (mapGet st.cache "solana") oracle
        (tryPrimary oracle k).kEnd).kEnd).trace = Ev.fetch binanceUrl :: r3 := by
    rw [tryBinance_trace]
    exact fetchLoop_head binanceUrl oracle (MAX_RETRIES + 1) 0 _ (by omega)
  refine ⟨h2, rest3, ?_⟩
  rw [getSolanaPrice_stale now tset oracle k st hstale]
  cases h3 : (tryBinance oracle (tryJupiter (mapGet st.cache "solana")
      oracle (tryPrimary oracle k).kEnd).kEnd).success with
  | some pc =>
    obtain ⟨p, ch⟩ := pc
    rw [providerPhase_binance_success tset oracle k st _ p ch h1 h2 h3, hrest3]
    simp [List.append_assoc]
  | none =>
    rw [providerPhase_all_fail tset oracle k st _ h1 h2 h3, hrest3]
    simp [List.append_assoc]

/-- Witness for C10: CoinGecko 500, Jupiter 2xx with price exactly 0 —
the Jupiter attempt fails and Binance is fetched next. -/
theorem jupiter_zero_witness :
    (tryJupiter none oracleJupiterZeroThenBinance
      (tryPrimary oracleJupiterZeroThenBinance 0).kEnd).success = none ∧
    ∃ rest, (getSolanaPrice 0 0 oracleJupiterZeroThenBinance 0 ⟨[], 0⟩).trace =
      (tryPrimary oracleJupiterZeroThenBinance 0).trace ++
        ((tryJupiter none oracleJupiterZeroThenBinance
          (tryPrimary oracleJupiterZeroThenBinance 0).kEnd).trace ++
          (Ev.fetch binanceUrl :: rest)) :=
  jupiter_zero_price_falls_through 0 0 0 oracleJupiterZeroThenBinance
    ⟨[], 0⟩ ⟨200, none, some bodyJupZero⟩ bodyJupZero rfl rfl rfl rfl rfl rfl
